import Mathlib

/-!
Verification of the ddmushi operation-execution pipeline and collection-proxy
resolution mechanism, as a shallow embedding of the TypeScript sources
(`operation-builder.ts`, `middlewares.ts`, `parser.ts`, `utils.ts`,
`query-options.ts`, `mutation-options.ts`, `infinite-query-options.ts`, and the
collection-builder proxy).

Modelling conventions:
- JavaScript runtime values are `JsValue`; objects are association lists of
  (key, value) pairs where a key present with value `undefined` is distinct
  from an absent key, and property lookup takes the last occurrence (so the
  list faithfully models JS objects, which never hold duplicate keys, while
  remaining total on arbitrary lists).
- `async` functions are computations `Comp α := List String → List String ×
  Except JsError α`: they may append events to a shared log (used to observe
  execution order) and may terminate with a thrown error.  Exceptions
  propagate through `Comp.bind` exactly as a rejected promise propagates
  through `await`.
- TypeScript functions taking a destructured object argument are curried where
  the object shape is fixed (`Middleware` receives `opts` and `next`), and
  receive a `JsValue` object where the shape is open (operation handlers,
  which are invoked with differently-shaped objects by the query, mutation and
  infinite-query options builders).
-/

/-- JavaScript runtime values.  `nan` is the floating NaN (falsy, defined);
numbers are otherwise modelled as integers, which suffices for every value the
claims mention.  Objects are ordered key/value lists (see module comment). -/
inductive JsValue where
  | undefined
  | null
  | bool (b : Bool)
  | num (n : Int)
  | nan
  | str (s : String)
  | obj (fields : List (String × JsValue))
  | arr (elems : List JsValue)

/-- JavaScript truthiness: `undefined`, `null`, `false`, `0`, `NaN` and the
empty string are falsy; every object and array (even empty) is truthy. -/
def truthy : JsValue → Bool
  | .undefined => false
  | .null => false
  | .bool b => b
  | .num n => n != 0
  | .nan => false
  | .str s => s != ""
  | .obj _ => true
  | .arr _ => true

/-- The `typeof input !== 'undefined'` test, negated: true exactly on
`undefined`. -/
def isUndef : JsValue → Bool
  | .undefined => true
  | _ => false

/-- Property lookup in an association list: the last occurrence of the key
wins, `none` when the key is absent. -/
def lookupLast {α : Type} (l : List (String × α)) (k : String) : Option α :=
  match l with
  | [] => none
  | (k1, v) :: rest =>
    match lookupLast rest k with
    | some w => some w
    | none => if k1 = k then some v else none

/-- Object-literal spread update `{...l, k: v}`: if `k` is already present its
entries are updated in place (preserving key order, as in JS), otherwise the
new pair is appended at the end. -/
def jsSpreadSet {α : Type} (l : List (String × α)) (k : String) (v : α) :
    List (String × α) :=
  if l.any (fun p => p.1 == k) then
    l.map (fun p => if p.1 = k then (k, v) else p)
  else
    l ++ [(k, v)]

/-- The field list of a value: objects expose their fields, everything else
(as in JS spread/rest of a non-object) contributes none. -/
def objPairs : JsValue → List (String × JsValue)
  | .obj l => l
  | _ => []

/-- Property access `v[k]`: `undefined` when the key is absent or the value is
not an object. -/
def objGetD (v : JsValue) (k : String) : JsValue :=
  (lookupLast (objPairs v) k).getD .undefined

/-- Rest destructuring `{k, ...rest} = v`: `rest` is `v` without key `k`. -/
def objRemove (v : JsValue) (k : String) : JsValue :=
  .obj ((objPairs v).filter (fun p => p.1 != k))

/-- The key list of an object value (order preserved), `[]` otherwise. -/
def objKeys (v : JsValue) : List String :=
  (objPairs v).map (fun p => p.1)

/-- One structured validation issue, as carried by a standard-schema failure
result (field path plus message). -/
structure Issue where
  message : String
  path : List String
deriving DecidableEq

/-- Errors of the embedded runtime: `validation` is `StandardSchemaV1Error`
(carrying the structured issue list) and `error` is a generic `Error`. -/
inductive JsError where
  | validation (issues : List Issue)
  | error (message : String)
deriving DecidableEq

/-- Asynchronous computations: a trace of observed events plus either a value
or a thrown error.  Used to give semantics to the async middleware chain. -/
def Comp (α : Type) : Type := List String → List String × Except JsError α

/-- Computation returning `a` immediately. -/
def Comp.pure {α : Type} (a : α) : Comp α := fun t => (t, Except.ok a)

/-- Sequencing (`await`): a thrown error in the first computation propagates,
skipping the continuation. -/
def Comp.bind {α β : Type} (c : Comp α) (f : α → Comp β) : Comp β := fun t =>
  match c t with
  | (t1, Except.ok a) => f a t1
  | (t1, Except.error e) => (t1, Except.error e)

/-- Append an observable event to the shared log. -/
def Comp.log (e : String) : Comp Unit := fun t => (t ++ [e], Except.ok ())

/-- Throw an error (a rejected promise). -/
def Comp.throw {α : Type} (e : JsError) : Comp α := fun t => (t, Except.error e)

/-- Run a computation from the empty trace. -/
def Comp.run {α : Type} (c : Comp α) : List String × Except JsError α := c []

/-- A standard-schema validation outcome: either the (possibly coerced) value,
or a non-empty structured issue list.  Mirrors the
`validate(value) → { value } | { issues }` contract consumed by `getParser`;
`validate` may be asynchronous and is therefore a `Comp`. -/
inductive SchemaResult where
  | value (v : JsValue)
  | issues (issues : List Issue)

/-- A schema-like capability behind the uniform standard-schema contract
(`parser['~standard'].validate`). -/
structure Parser where
  validate : JsValue → Comp SchemaResult

/-- From `parser.ts`: `getParser` adapts a standard-schema parser into a parse
function that awaits `validate`, throws `StandardSchemaV1Error(result.issues)`
when the result carries issues, and otherwise returns `result.value`. -/
def getParser (parser : Parser) : JsValue → Comp JsValue := fun value =>
  Comp.bind (parser.validate value) (fun result =>
    match result with
    | .issues iss => Comp.throw (.validation iss)
    | .value v => Comp.pure v)

/-- From `types.ts`: the object threaded through the middleware chain
(`{ ctx, input }`; the declared optional `output` parser field is never set or
read at runtime and is omitted). -/
structure MiddlewareOpts where
  ctx : JsValue
  input : JsValue

/-- A middleware `({ opts, next }) → Promise<unknown>`, curried: it receives
the current opts and the `next` continuation. -/
def Middleware : Type :=
  MiddlewareOpts → (MiddlewareOpts → Comp JsValue) → Comp JsValue

/-- From `middlewares.ts`: the input-validation middleware parses
`opts.input` (throwing on failure) and only then calls `next` with the parsed
input substituted. -/
def createInputMiddleware (parser : Parser) : Middleware := fun opts next =>
  Comp.bind (getParser parser opts.input) (fun parsed =>
    next { opts with input := parsed })

/-- From `middlewares.ts`: the output-validation middleware first awaits
`next(opts)`, then parses the returned result and returns the parsed value. -/
def createOutputMiddleware (parser : Parser) : Middleware := fun opts next =>
  Comp.bind (next opts) (fun result =>
    Comp.bind (getParser parser result) (fun parsed =>
      Comp.pure parsed))

/-- Builder metadata accumulated by `.input()`, `.output()` and `.use()`. -/
structure OperationBuilderMeta where
  inputs : List Parser
  output : Option Parser
  middlewares : List Middleware

/-- Operation classification. -/
inductive OperationType where
  | query
  | mutation
deriving DecidableEq

/-- A finalized operation: the `_type: 'operation'` tag is carried by the
`Node` representation used for proxy traversal; here only the classification
and the composed handler remain. -/
structure Operation where
  _operationType : OperationType
  handler : JsValue → Comp JsValue

/-- The `reduceRight` composition from `execute` in `operation-builder.ts`:
each step wraps the accumulated continuation, so the first middleware of the
list ends up outermost. -/
def composeChain (middlewares : List Middleware)
    (terminal : MiddlewareOpts → Comp JsValue) : MiddlewareOpts → Comp JsValue :=
  middlewares.foldr
    (fun middleware next => fun opts => middleware opts (fun newOpts => next newOpts))
    terminal

/-- From `operation-builder.ts` (`execute`): builds the composed handler.  The
resolver argument is destructured as `{ input, ...handlerOpts }`; the terminal
function calls the user handler with `{...handlerOpts, input: opts.input,
ctx: opts.ctx}`; the middleware chain is the `reduceRight` composition applied
to `{ input, ctx: handlerOpts.ctx }`. -/
def execute (ty : OperationType) (handler : JsValue → Comp JsValue)
    (meta : OperationBuilderMeta) : Operation :=
  let composedHandler : JsValue → Comp JsValue := fun resolverArg =>
    let input := objGetD resolverArg "input"
    let handlerOpts := objRemove resolverArg "input"
    let executeWithOpts : MiddlewareOpts → Comp JsValue := fun opts =>
      handler (.obj (jsSpreadSet
        (jsSpreadSet (objPairs handlerOpts) "input" opts.input) "ctx" opts.ctx))
    let composed := composeChain meta.middlewares executeWithOpts
    composed ⟨objGetD handlerOpts "ctx", input⟩
  { _operationType := ty, handler := composedHandler }

/-- A fluent operation builder value (`createOperationBuilder`). -/
structure OperationBuilder where
  _meta : OperationBuilderMeta

/-- `createOperationBuilder()` with the default metadata. -/
def defaultBuilder : OperationBuilder :=
  ⟨{ inputs := [], output := none, middlewares := [] }⟩

/-- `.use(middleware)`: returns a new builder with the middleware appended. -/
def OperationBuilder.use (b : OperationBuilder) (middleware : Middleware) :
    OperationBuilder :=
  ⟨{ b._meta with middlewares := b._meta.middlewares ++ [middleware] }⟩

/-- `.input(parser)`: records the parser and appends the input-validation
middleware at the current position. -/
def OperationBuilder.input (b : OperationBuilder) (parser : Parser) :
    OperationBuilder :=
  ⟨{ inputs := b._meta.inputs ++ [parser],
     middlewares := b._meta.middlewares ++ [createInputMiddleware parser],
     output := b._meta.output }⟩

/-- `.output(parser)`: records the parser and appends the output-validation
middleware at the current position. -/
def OperationBuilder.output (b : OperationBuilder) (parser : Parser) :
    OperationBuilder :=
  ⟨{ b._meta with
     output := some parser,
     middlewares := b._meta.middlewares ++ [createOutputMiddleware parser] }⟩

/-- `.query(handler)`: finalizes into a query operation. -/
def OperationBuilder.query (b : OperationBuilder)
    (handler : JsValue → Comp JsValue) : Operation :=
  execute .query handler b._meta

/-- `.mutation(handler)`: finalizes into a mutation operation. -/
def OperationBuilder.mutation (b : OperationBuilder)
    (handler : JsValue → Comp JsValue) : Operation :=
  execute .mutation handler b._meta

/-- The `kind` tag of a query key (`'query' | 'infinite'`). -/
inductive QueryKind where
  | query
  | infinite
deriving DecidableEq

/-- The JS value of a kind. -/
def QueryKind.toJs : QueryKind → JsValue
  | .query => .str "query"
  | .infinite => .str "infinite"

/-- The runtime value of the optional `kind` parameter (`undefined` when the
parameter is omitted). -/
def jsOfKind : Option QueryKind → JsValue
  | some k => k.toJs
  | none => .undefined

/-- From `utils.ts` (`buildQueryKey`): if neither `input` nor `kind` is truthy,
the bare path (or a fresh empty array) is returned; otherwise the path is
extended with a single marker object that carries `input` only when `input` is
defined, and always carries the `kind` key (whose value is `undefined` when
the parameter was omitted). -/
def buildQueryKey (path : List String) (input : JsValue)
    (kind : Option QueryKind) : List JsValue :=
  if !(truthy input || truthy (jsOfKind kind)) then
    (if path.length != 0 then path.map JsValue.str else [])
  else
    path.map JsValue.str ++
      [JsValue.obj
        ((if isUndef input then [] else [("input", input)]) ++
          [("kind", jsOfKind kind)])]

/-- From `utils.ts`: `buildMutationKey(path) = buildQueryKey(path, undefined)`
(the `kind` parameter is also omitted). -/
def buildMutationKey (path : List String) : List JsValue :=
  buildQueryKey path .undefined none

/-- Reference definition of the key builder transcribed from the claim and
spec wording (presence by definedness, both marker fields omitted when their
parameter is undefined).  Used only to compare against `buildQueryKey`. -/
def specBuildQueryKey (path : List String) (input : JsValue)
    (kind : Option QueryKind) : List JsValue :=
  if isUndef input && kind.isNone then
    path.map JsValue.str
  else
    path.map JsValue.str ++
      [JsValue.obj
        ((if isUndef input then [] else [("input", input)]) ++
          (match kind with
           | some k => [("kind", k.toJs)]
           | none => []))]

/-- Reference definition of the key builder amended to what the source does:
the bare path is returned whenever `input` is falsy and `kind` is omitted, and
the marker always carries the `kind` key. -/
def amendedBuildQueryKeySpec (path : List String) (input : JsValue)
    (kind : Option QueryKind) : List JsValue :=
  if truthy input = false ∧ kind = none then
    path.map JsValue.str
  else
    path.map JsValue.str ++
      [JsValue.obj
        ((if isUndef input then [] else [("input", input)]) ++
          [("kind", jsOfKind kind)])]

/-- The shared router context object (`RuntimeOptions`, `{ ctx }`). -/
structure RuntimeOptions where
  ctx : JsValue

/-- One field of an options descriptor: a computed key, one of the computed
fetch functions, or a plain caller-supplied value. -/
inductive DescVal where
  | v (value : JsValue)
  | key (value : List JsValue)
  | qfn (f : Unit → Comp JsValue)
  | mfn (f : JsValue → Comp JsValue)
  | ifn (f : JsValue → Comp JsValue)

/-- Whether a descriptor field is a computed key. -/
def DescVal.isComputedKey : DescVal → Bool
  | .key _ => true
  | _ => false

/-- Whether a descriptor field is a plain caller-supplied value (as opposed to
a computed key or fetch function). -/
def DescVal.isPlainValue : DescVal → Bool
  | .v _ => true
  | _ => false

/-- An options descriptor as consumed by the external fetching engine: a JS
object whose fields include the computed key and fetch function. -/
def Desc : Type := List (String × DescVal)

/-- Extract the infinite-query fetch function from a descriptor field (a
non-function field throws a TypeError when invoked, as in JS). -/
def descIfn (d : Desc) (k : String) : JsValue → Comp JsValue :=
  match lookupLast d k with
  | some (.ifn f) => f
  | _ => fun _ => Comp.throw (.error "TypeError: not a function")

/-- From `query-options.ts` (ResolverFn draft): computes
`queryKey = buildQueryKey(path, input, 'query')`, a zero-argument `queryFn`
that calls the handler with `{...opts, input}`, and returns
`queryOptions({...options, queryKey, queryFn})` (the tanstack `queryOptions`
helper is the identity at runtime). -/
def createQueryOptions (opts : RuntimeOptions) (query : JsValue → Comp JsValue)
    (path : List String) : JsValue → Desc → Desc := fun input options =>
  let queryKey := buildQueryKey path input (some .query)
  let queryFn : Unit → Comp JsValue := fun _ =>
    query (.obj [("ctx", opts.ctx), ("input", input)])
  jsSpreadSet (jsSpreadSet options "queryKey" (.key queryKey))
    "queryFn" (.qfn queryFn)

/-- From `mutation-options.ts`: computes `mutationKey = buildMutationKey(path)`,
a `mutationFn` that calls the handler with `{...opts, input}` for the
call-time variables, and returns `{...options, mutationKey, mutationFn}`. -/
def createMutationOptions (opts : RuntimeOptions)
    (mutate : JsValue → Comp JsValue) (path : List String) : Desc → Desc :=
  fun options =>
  let mutationKey := buildMutationKey path
  let mutationFn : JsValue → Comp JsValue := fun input =>
    mutate (.obj [("ctx", opts.ctx), ("input", input)])
  jsSpreadSet (jsSpreadSet options "mutationKey" (.key mutationKey))
    "mutationFn" (.mfn mutationFn)

/-- From `infinite-query-options.ts` (first, ResolverFn draft): computes
`queryKey = buildQueryKey(path, input, 'infinite')`, a `queryFn` that calls
the handler with `{ opts, input, pageParam: context.pageParam }` — the caller
input passed through unchanged and the page parameter as a separate field —
and returns `infiniteQueryOptions({...options, queryKey, queryFn,
initialPageParam: options?.initialPageParam})` (the tanstack helper is the
identity at runtime). -/
def createInfiniteQueryOptions (opts : RuntimeOptions)
    (query : JsValue → Comp JsValue) (path : List String) :
    JsValue → Desc → Desc := fun input options =>
  let queryKey := buildQueryKey path input (some .infinite)
  let queryFn : JsValue → Comp JsValue := fun context =>
    query (.obj [("opts", .obj [("ctx", opts.ctx)]), ("input", input),
      ("pageParam", objGetD context "pageParam")])
  jsSpreadSet
    (jsSpreadSet (jsSpreadSet options "queryKey" (.key queryKey))
      "queryFn" (.ifn queryFn))
    "initialPageParam" ((lookupLast options "initialPageParam").getD (.v .undefined))

/-- From `infinite-query-options.ts` (second, QueryFn draft in the same file):
the handler takes `(opts, input)` and `queryFn` calls it with the merged
single input `{...input, pageParam: context.pageParam}`. -/
def createInfiniteQueryOptionsV2 (opts : RuntimeOptions)
    (query : RuntimeOptions → JsValue → Comp JsValue) (path : List String) :
    JsValue → Desc → Desc := fun input options =>
  let queryKey := buildQueryKey path input (some .infinite)
  let queryFn : JsValue → Comp JsValue := fun context =>
    query opts (.obj (jsSpreadSet (objPairs input)
      "pageParam" (objGetD context "pageParam")))
  jsSpreadSet
    (jsSpreadSet (jsSpreadSet options "queryKey" (.key queryKey))
      "queryFn" (.ifn queryFn))
    "initialPageParam" ((lookupLast options "initialPageParam").getD (.v .undefined))

/-- Values stored in a collection tree, as traversed by the proxy: JS values
extended with function values (operation handlers). -/
inductive Node where
  | undefined
  | null
  | bool (b : Bool)
  | num (n : Int)
  | str (s : String)
  | fn (f : JsValue → Comp JsValue)
  | obj (fields : List (String × Node))
  | arr (elems : List Node)

/-- The field list of a node (objects only). -/
def nodePairs : Node → List (String × Node)
  | .obj l => l
  | _ => []

/-- Whether an optional node is the given string (used for the discriminant
field checks `definition._type === 'operation'` etc.). -/
def nodeIsStr (n : Option Node) (s : String) : Bool :=
  match n with
  | some (.str t) => t == s
  | _ => false

/-- From the collection builder in `utils.ts`: a value is classified as a
query operation iff it is a truthy object carrying `_type === 'operation'` and
`_operationType === 'query'`.  Plain JS arrays carry neither discriminant
property, and `null` fails the truthiness guard. -/
def isQueryOperation (definition : Node) : Bool :=
  match definition with
  | .obj fields =>
      nodeIsStr (lookupLast fields "_type") "operation" &&
        nodeIsStr (lookupLast fields "_operationType") "query"
  | _ => false

/-- The mutation counterpart of `isQueryOperation`
(`_operationType === 'mutation'`). -/
def isMutationOperation (definition : Node) : Bool :=
  match definition with
  | .obj fields =>
      nodeIsStr (lookupLast fields "_type") "operation" &&
        nodeIsStr (lookupLast fields "_operationType") "mutation"
  | _ => false

/-- From `utils.ts`: `isCollection(value)` holds iff the value is a non-null,
non-array object (`value !== null && typeof value === 'object' &&
!Array.isArray(value)`); function values have `typeof 'function'` and are
likewise excluded. -/
def isCollection (value : Node) : Bool :=
  match value with
  | .obj _ => true
  | _ => false

/-- The router metadata (`DDmushiMeta`): the shared context and the
`_config.collections` bookkeeping map, modelled as the partial lookup
`operation ↦ metadata.originalTarget`. -/
structure DDmushiMeta where
  ctx : JsValue
  collections : Node → Option Node

/-- Extract `operation.handler`; calling a missing or non-function handler
throws a TypeError, as in JS. -/
def handlerOf (operation : Node) : JsValue → Comp JsValue :=
  match lookupLast (nodePairs operation) "handler" with
  | some (.fn f) => f
  | _ => fun _ => Comp.throw (.error "TypeError: handler is not a function")

/-- The result of resolving one property on the collection proxy: an accessor
object for an operation leaf, a lazily nested collection view, or the raw
value passed through unchanged. -/
inductive Resolved where
  | queryAccessor (queryOptions : JsValue → Desc → Desc)
      (infiniteQueryOptions : JsValue → Desc → Desc)
  | mutationAccessor (mutationOptions : Desc → Desc)
  | collectionView (target : Node) (path : List String)
  | passthrough (value : Node)

/-- From the collection builder (`createCollectionBuilder` / the proxy `get`
trap): resolves property `prop` of `target` at `path`.  Query operations yield
`{ queryOptions, infiniteQueryOptions }`, mutation operations yield
`{ mutationOptions }`, collections yield a nested lazily-proxied view (via the
tracked original target when one is registered), and anything else is returned
unchanged.  The surrounding `Proxy` construction and the collection-tracking
side effect are represented by the `meta.collections` lookup. -/
def collectionBuilderGet (meta : DDmushiMeta) (target : List (String × Node))
    (path : List String) (prop : String) : Resolved :=
  let currentPath := path ++ [prop]
  let operation := (lookupLast target prop).getD Node.undefined
  if isQueryOperation operation then
    let query := handlerOf operation
    .queryAccessor (createQueryOptions ⟨meta.ctx⟩ query currentPath)
      (createInfiniteQueryOptions ⟨meta.ctx⟩ query currentPath)
  else if isMutationOperation operation then
    .mutationAccessor (createMutationOptions ⟨meta.ctx⟩ (handlerOf operation) currentPath)
  else if isCollection operation then
    let targetToProxy := (meta.collections operation).getD operation
    .collectionView targetToProxy currentPath
  else
    .passthrough operation

/-- Instrumented middleware used to observe execution order: logs
`name-enter`, delegates to `next` unchanged, then logs `name-exit` and returns
the delegated result. -/
def logMW (name : String) : Middleware := fun opts next =>
  Comp.bind (Comp.log (name ++ "-enter")) (fun _ =>
    Comp.bind (next opts) (fun result =>
      Comp.bind (Comp.log (name ++ "-exit")) (fun _ =>
        Comp.pure result)))

/-- Instrumented short-circuiting middleware: logs `B`, never invokes `next`,
and returns its own value `v`. -/
def shortMW (v : JsValue) : Middleware := fun _opts _next =>
  Comp.bind (Comp.log "B") (fun _ => Comp.pure v)

/-- Instrumented terminal handler: logs `H` and returns `"done"`. -/
def logHandler : JsValue → Comp JsValue := fun _ =>
  Comp.bind (Comp.log "H") (fun _ => Comp.pure (.str "done"))

/-- Instrumented handler returning a fixed raw value after logging `H`. -/
def constHandler (raw : JsValue) : JsValue → Comp JsValue := fun _ =>
  Comp.bind (Comp.log "H") (fun _ => Comp.pure raw)

/-- Handler that returns its entire resolver argument, used to observe exactly
what an options builder passes to the operation handler. -/
def captureHandler : JsValue → Comp JsValue := fun resolverArg =>
  Comp.pure resolverArg

/-- A schema that rejects every value with a single fixed issue. -/
def rejectParser : Parser :=
  ⟨fun _ => Comp.pure (.issues [⟨"invalid", []⟩])⟩

/-- A schema whose validation logs a `parse` event and coerces the value
through `g` (observably distinct from the raw value for non-identity `g`). -/
def traceParser (g : JsValue → JsValue) : Parser :=
  ⟨fun v => Comp.bind (Comp.log "parse") (fun _ => Comp.pure (.value (g v)))⟩

/-- The value of an `.ok` run outcome (`undefined` on a thrown error), used to
inspect concrete executions. -/
def runOk (c : Comp JsValue) : JsValue :=
  match Comp.run c with
  | (_, .ok v) => v
  | _ => .undefined

theorem lookupLast_append_some {α : Type} {l2 : List (String × α)} {k : String}
    {w : α} (l1 : List (String × α)) (h : lookupLast l2 k = some w) :
    lookupLast (l1 ++ l2) k = some w := by
  induction l1 with
  | nil => simpa using h
  | cons p l1 ih =>
    obtain ⟨k1, v⟩ := p
    simp [lookupLast, List.append_eq, ih]

theorem lookupLast_append_none {α : Type} {l2 : List (String × α)} {k : String}
    (l1 : List (String × α)) (h : lookupLast l2 k = none) :
    lookupLast (l1 ++ l2) k = lookupLast l1 k := by
  induction l1 with
  | nil => simpa using h
  | cons p l1 ih =>
    obtain ⟨k1, v⟩ := p
    simp only [List.cons_append, lookupLast, List.append_eq, ih]

theorem lookupLast_map_set_self {α : Type} (l : List (String × α)) (k : String) (v : α) :
    lookupLast (l.map (fun p => if p.1 = k then (k, v) else p)) k =
      if l.any (fun p => p.1 == k) then some v else none := by
  induction l with
  | nil => simp [lookupLast]
  | cons p l ih =>
    by_cases hk : p.1 = k
    · rw [List.map_cons, if_pos hk]
      simp only [lookupLast, ih, List.any_cons]
      rcases Bool.eq_false_or_eq_true (l.any (fun p => p.1 == k)) with hany | hany <;>
        simp only [hany] <;> simp [hk]
    · rw [List.map_cons, if_neg hk]
      simp only [lookupLast, ih, List.any_cons]
      rcases Bool.eq_false_or_eq_true (l.any (fun p => p.1 == k)) with hany | hany <;>
        simp only [hany] <;> simp [hk, beq_iff_eq]

theorem lookupLast_map_set_other {α : Type} (l : List (String × α)) (k k2 : String)
    (v : α) (h : k2 ≠ k) :
    lookupLast (l.map (fun p => if p.1 = k then (k, v) else p)) k2 =
      lookupLast l k2 := by
  induction l with
  | nil => rfl
  | cons p l ih =>
    by_cases hk : p.1 = k
    · rw [List.map_cons, if_pos hk]
      simp only [lookupLast, ih]
      cases lookupLast l k2 with
      | some w => rfl
      | none =>
        have h1 : ¬(k = k2) := fun he => h he.symm
        have h2 : ¬(p.1 = k2) := fun he => h (hk ▸ he : k = k2).symm
        simp [h1, h2]
    · rw [List.map_cons, if_neg hk]
      simp only [lookupLast, ih]

theorem lookupLast_jsSpreadSet_self {α : Type} (l : List (String × α)) (k : String) (v : α) :
    lookupLast (jsSpreadSet l k v) k = some v := by
  unfold jsSpreadSet
  rcases Bool.eq_false_or_eq_true (l.any (fun p => p.1 == k)) with hany | hany <;>
    simp only [hany]
  · rw [if_pos trivial, lookupLast_map_set_self, hany, if_pos rfl]
  · rw [if_neg (by simp)]
    exact lookupLast_append_some l (show lookupLast [(k, v)] k = some v by simp [lookupLast])

theorem lookupLast_jsSpreadSet_other {α : Type} (l : List (String × α)) (k k2 : String)
    (v : α) (h : k2 ≠ k) :
    lookupLast (jsSpreadSet l k v) k2 = lookupLast l k2 := by
  unfold jsSpreadSet
  rcases Bool.eq_false_or_eq_true (l.any (fun p => p.1 == k)) with hany | hany <;>
    simp only [hany]
  · rw [if_pos trivial]
    exact lookupLast_map_set_other l k k2 v h
  · rw [if_neg (by simp)]
    refine lookupLast_append_none l ?_
    have h1 : ¬(k = k2) := fun he => h he.symm
    simp [lookupLast, h1]

theorem comp_bind_log (s : String) (f : Unit → Comp α) (t : List String) :
    Comp.bind (Comp.log s) f t = f () (t ++ [s]) := rfl

theorem comp_bind_eq_ok {α β : Type} {c : Comp α} {t t1 : List String} {a : α}
    (f : α → Comp β) (h : c t = (t1, Except.ok a)) :
    Comp.bind c f t = f a t1 := by
  unfold Comp.bind
  rw [h]

theorem composeChain_cons (m : Middleware) (ms : List Middleware)
    (terminal : MiddlewareOpts → Comp JsValue) :
    composeChain (m :: ms) terminal =
      fun opts => m opts (fun newOpts => composeChain ms terminal newOpts) := rfl

theorem composeChain_logMW_trace (names : List String)
    (terminal : MiddlewareOpts → Comp JsValue) (v : JsValue)
    (hterm : ∀ o t, terminal o t = (t ++ ["H"], Except.ok v))
    (opts : MiddlewareOpts) :
    ∀ t, composeChain (names.map logMW) terminal opts t =
      (t ++ names.map (fun n => n ++ "-enter") ++ ["H"] ++
        (names.map (fun n => n ++ "-exit")).reverse, Except.ok v) := by
  induction names with
  | nil =>
    intro t
    simpa [composeChain] using hterm opts t
  | cons n ns ih =>
    intro t
    rw [List.map_cons, composeChain_cons]
    show Comp.bind (Comp.log (n ++ "-enter")) (fun _ =>
      Comp.bind (composeChain (ns.map logMW) terminal opts) (fun result =>
        Comp.bind (Comp.log (n ++ "-exit")) (fun _ => Comp.pure result))) t = _
    rw [comp_bind_log]
    rw [comp_bind_eq_ok _ (ih (t ++ [n ++ "-enter"]))]
    rw [comp_bind_log]
    simp [Comp.pure]

theorem composeChain_shortMW_trace (pre : List String) (v : JsValue)
    (suffix : List Middleware) (terminal : MiddlewareOpts → Comp JsValue)
    (opts : MiddlewareOpts) :
    ∀ t, composeChain (pre.map logMW ++ shortMW v :: suffix) terminal opts t =
      (t ++ pre.map (fun n => n ++ "-enter") ++ ["B"] ++
        (pre.map (fun n => n ++ "-exit")).reverse, Except.ok v) := by
  induction pre with
  | nil =>
    intro t
    rw [List.map_nil, List.nil_append, composeChain_cons]
    show Comp.bind (Comp.log "B") (fun _ => Comp.pure v) t = _
    rw [comp_bind_log]
    simp [Comp.pure]
  | cons n ns ih =>
    intro t
    rw [List.map_cons, List.cons_append, composeChain_cons]
    show Comp.bind (Comp.log (n ++ "-enter")) (fun _ =>
      Comp.bind (composeChain (ns.map logMW ++ shortMW v :: suffix) terminal opts) (fun result =>
        Comp.bind (Comp.log (n ++ "-exit")) (fun _ => Comp.pure result))) t = _
    rw [comp_bind_log]
    rw [comp_bind_eq_ok _ (ih (t ++ [n ++ "-enter"]))]
    rw [comp_bind_log]
    simp [Comp.pure]

theorem foldl_use_middlewares (ms : List Middleware) (b : OperationBuilder) :
    ((ms.foldl (fun b m => b.use m) b))._meta.middlewares =
      b._meta.middlewares ++ ms := by
  induction ms generalizing b with
  | nil => simp
  | cons m ms ih =>
    rw [List.foldl_cons, ih]
    simp [OperationBuilder.use]

theorem execute_handler_std (ty : OperationType) (h : JsValue → Comp JsValue)
    (meta : OperationBuilderMeta) (ctx input : JsValue) :
    (execute ty h meta).handler (.obj [("ctx", ctx), ("input", input)]) =
      composeChain meta.middlewares
        (fun opts => h (.obj [("ctx", opts.ctx), ("input", opts.input)]))
        ⟨ctx, input⟩ := by
  unfold execute
  simp [objRemove, objPairs, objGetD, lookupLast, jsSpreadSet]

/-- C1: middlewares accumulated via `.use()`/`.input()`/`.output()` are
appended in declaration order with no reordering at finalization, and the
composed handler of a finalized operation enters them in declaration order
(first declared outermost), runs the handler innermost, and unwinds in reverse
declaration order: instrumented middlewares named `names` around the logging
handler produce exactly the trace `enters ++ [H] ++ reversed exits`. -/
theorem middleware_onion_execution_order :
    (∀ (b : OperationBuilder) (m : Middleware),
      (b.use m)._meta.middlewares = b._meta.middlewares ++ [m])
    ∧ (∀ (b : OperationBuilder) (p : Parser),
      (b.input p)._meta.middlewares =
        b._meta.middlewares ++ [createInputMiddleware p])
    ∧ (∀ (b : OperationBuilder) (p : Parser),
      (b.output p)._meta.middlewares =
        b._meta.middlewares ++ [createOutputMiddleware p])
    ∧ (∀ (names : List String) (ctx input : JsValue),
      Comp.run
        ((((names.map logMW).foldl (fun b m => b.use m) defaultBuilder).query
            logHandler).handler (.obj [("ctx", ctx), ("input", input)]))
      = (names.map (fun n => n ++ "-enter") ++ ["H"] ++
          (names.map (fun n => n ++ "-exit")).reverse,
         Except.ok (.str "done"))) := by
  refine ⟨fun b m => rfl, fun b p => rfl, fun b p => rfl,
    fun names ctx input => ?_⟩
  have hmeta :
      (((names.map logMW).foldl (fun b m => b.use m) defaultBuilder))._meta.middlewares
        = names.map logMW := by
    rw [foldl_use_middlewares]
    simp [defaultBuilder]
  unfold OperationBuilder.query
  unfold Comp.run
  rw [execute_handler_std, hmeta]
  rw [composeChain_logMW_trace names
    (fun opts => logHandler (.obj [("ctx", opts.ctx), ("input", opts.input)]))
    (.str "done") (fun o t => rfl) ⟨ctx, input⟩ []]
  simp

/-- C2: if a middleware in the chain returns without invoking `next`, every
later middleware and the handler never execute (their events are absent from
the trace, whatever they are), and the short-circuiting middleware's own
return value is the final result of the invocation. -/
theorem middleware_short_circuit :
    ∀ (pre : List String) (v : JsValue) (suffix : List Middleware)
      (handler : JsValue → Comp JsValue) (ctx input : JsValue),
      Comp.run
        ((((pre.map logMW ++ shortMW v :: suffix).foldl
            (fun b m => b.use m) defaultBuilder).query handler).handler
          (.obj [("ctx", ctx), ("input", input)]))
      = (pre.map (fun n => n ++ "-enter") ++ ["B"] ++
          (pre.map (fun n => n ++ "-exit")).reverse, Except.ok v) := by
  intro pre v suffix handler ctx input
  have hmeta :
      (((pre.map logMW ++ shortMW v :: suffix).foldl
          (fun b m => b.use m) defaultBuilder))._meta.middlewares
        = pre.map logMW ++ shortMW v :: suffix := by
    rw [foldl_use_middlewares]
    simp [defaultBuilder]
  unfold OperationBuilder.query
  unfold Comp.run
  rw [execute_handler_std, hmeta]
  rw [composeChain_shortMW_trace pre v suffix
    (fun opts => handler (.obj [("ctx", opts.ctx), ("input", opts.input)]))
    ⟨ctx, input⟩ []]
  simp

theorem comp_bind_eq_error {α β : Type} {c : Comp α} {t t1 : List String}
    {e : JsError} (f : α → Comp β) (h : c t = (t1, Except.error e)) :
    Comp.bind c f t = (t1, Except.error e) := by
  unfold Comp.bind
  rw [h]

/-- C3: an operation finalized from `.input(schema)` invoked with an input the
schema rejects fails with the `StandardSchemaV1Error` validation error carrying
exactly the structured issue list (never a generic error), and the user
handler never executes: the result holds for every handler and the trace stays
empty. -/
theorem input_validation_rejects_before_handler :
    ∀ (p : Parser) (iss : List Issue) (ctx input : JsValue)
      (handler : JsValue → Comp JsValue),
      p.validate input = Comp.pure (.issues iss) →
      Comp.run (((defaultBuilder.input p).query handler).handler
          (.obj [("ctx", ctx), ("input", input)]))
        = ([], Except.error (.validation iss)) := by
  intro p iss ctx input handler hval
  unfold Comp.run OperationBuilder.query
  rw [execute_handler_std]
  show Comp.bind (getParser p input) _ [] = _
  refine comp_bind_eq_error _ ?_
  unfold getParser
  rw [hval]
  rfl

/-- C3 witness: the always-rejecting schema makes the invocation fail with the
validation error and the handler (here the logging handler, which would have
left an `H` event) never runs. -/
theorem input_validation_rejects_before_handler_witness :
    rejectParser.validate (.num 3) = Comp.pure (.issues [⟨"invalid", []⟩])
    ∧ Comp.run (((defaultBuilder.input rejectParser).query logHandler).handler
        (.obj [("ctx", .null), ("input", .num 3)]))
      = ([], Except.error (.validation [⟨"invalid", []⟩])) :=
  ⟨rfl, input_validation_rejects_before_handler rejectParser [⟨"invalid", []⟩]
    .null (.num 3) logHandler rfl⟩

/-- C4: an operation finalized from `.output(schema)` runs the handler first
(`next` is awaited before any parsing: the `H` event precedes the `parse`
event), and the invocation returns the parsed (coerced) value `g raw`, not the
raw handler result. -/
theorem output_validation_parses_after_next :
    ∀ (g : JsValue → JsValue) (raw ctx input : JsValue),
      Comp.run (((defaultBuilder.output (traceParser g)).query
          (constHandler raw)).handler (.obj [("ctx", ctx), ("input", input)]))
        = (["H", "parse"], Except.ok (g raw)) :=
  fun _ _ _ _ => rfl

theorem bareKey_eq_map (path : List String) :
    (if path.length != 0 then path.map JsValue.str else []) =
      path.map JsValue.str := by
  cases path <;> simp

/-- C5 counterexample: the claim fails at two concrete inputs.  With the
defined but falsy input `0` and no kind, `buildQueryKey` returns the bare path
(length 1, not `path.length + 1` = 2 as the claim requires for a defined
input); and with the truthy input `1` and no kind, the single marker element
carries the key `kind` (with value `undefined`) although no kind was provided,
where the claim requires the marker keys to be exactly `["input"]`. -/
theorem buildQueryKey_spec_counterexample :
    buildQueryKey ["a"] (.num 0) none = [.str "a"]
    ∧ ¬((buildQueryKey ["a"] (.num 0) none).length =
        (["a"] : List String).length + 1)
    ∧ (specBuildQueryKey ["a"] (.num 0) none).length =
        (["a"] : List String).length + 1
    ∧ (buildQueryKey [] (.num 1) none).map objKeys = [["input", "kind"]]
    ∧ ¬((buildQueryKey [] (.num 1) none).map objKeys = [["input"]])
    ∧ (specBuildQueryKey [] (.num 1) none).map objKeys = [["input"]] := by
  refine ⟨rfl, by decide, by decide, rfl, by decide, rfl⟩

/-- C5 (amended): `buildQueryKey` equals the reference definition amended to
decide the bare-path case by truthiness of `input` (with `kind` absent), and
to always include the `kind` key in the marker (value `undefined` when the
kind was omitted); `input` is still included by definedness.  The bare path
and empty-path cases of the original claim are unchanged. -/
theorem buildQueryKey_matches_amended_spec :
    ∀ (path : List String) (input : JsValue) (kind : Option QueryKind),
      buildQueryKey path input kind = amendedBuildQueryKeySpec path input kind := by
  intro path input kind
  unfold buildQueryKey amendedBuildQueryKeySpec
  cases kind with
  | none =>
    rcases Bool.eq_false_or_eq_true (truthy input) with ht | ht <;>
      simp [jsOfKind, ht, show truthy JsValue.undefined = false from rfl,
        bareKey_eq_map path]
  | some k =>
    cases k <;>
      simp [jsOfKind, QueryKind.toJs,
        show truthy (JsValue.str "query") = true from rfl,
        show truthy (JsValue.str "infinite") = true from rfl]

/-- C10: `buildQueryKey` decides the presence of `input` by truthiness, not
definedness: for every defined but falsy input with no kind, it returns the
bare path, identical to the key of the parameterless call at the same path. -/
theorem falsy_defined_input_yields_bare_key :
    ∀ (path : List String) (input : JsValue),
      isUndef input = false → truthy input = false →
      buildQueryKey path input none = path.map JsValue.str
      ∧ buildQueryKey path input none = buildQueryKey path .undefined none := by
  intro path input _hdef ht
  have h1 : buildQueryKey path input none = path.map JsValue.str := by
    unfold buildQueryKey
    simp [jsOfKind, ht, show truthy JsValue.undefined = false from rfl,
      bareKey_eq_map path]
  have h2 : buildQueryKey path .undefined none = path.map JsValue.str := by
    unfold buildQueryKey
    simp [jsOfKind, show truthy JsValue.undefined = false from rfl,
      bareKey_eq_map path]
  exact ⟨h1, h1.trans h2.symm⟩

/-- C10 witness: the defined falsy input `0` at path `["users", "list"]`
yields the bare path, the same key as the parameterless query. -/
theorem falsy_defined_input_yields_bare_key_witness :
    isUndef (.num 0) = false ∧ truthy (.num 0) = false
    ∧ buildQueryKey ["users", "list"] (.num 0) none =
        [.str "users", .str "list"]
    ∧ buildQueryKey ["users", "list"] (.num 0) none =
        buildQueryKey ["users", "list"] .undefined none := by
  refine ⟨rfl, by decide, ?_, ?_⟩
  · exact (falsy_defined_input_yields_bare_key ["users", "list"] (.num 0) rfl
      (by decide)).1
  · exact (falsy_defined_input_yields_bare_key ["users", "list"] (.num 0) rfl
      (by decide)).2

/-- C8: for every mutation leaf, the descriptor's `mutationKey` field is the
bare path: `buildMutationKey(path) = buildQueryKey(path, undefined, undefined)
= path`, with no trailing marker element, regardless of overrides. -/
theorem mutation_key_is_bare_path :
    ∀ (opts : RuntimeOptions) (mutate : JsValue → Comp JsValue)
      (path : List String) (options : Desc),
      lookupLast (createMutationOptions opts mutate path options) "mutationKey"
        = some (.key (path.map JsValue.str))
      ∧ buildMutationKey path = buildQueryKey path .undefined none
      ∧ buildMutationKey path = path.map JsValue.str := by
  intro opts mutate path options
  have hbme : buildMutationKey path = path.map JsValue.str := by
    unfold buildMutationKey buildQueryKey
    simp [jsOfKind, show truthy JsValue.undefined = false from rfl,
      bareKey_eq_map path]
  refine ⟨?_, rfl, hbme⟩
  unfold createMutationOptions
  rw [lookupLast_jsSpreadSet_other _ _ _ _ (by decide),
      lookupLast_jsSpreadSet_self, hbme]

/-- C7 counterexample: an overrides object that explicitly redefines the
computed key or the computed fetch function does NOT replace either — the
builders spread `...options` first, so the computed fields win.  Here the
override sets `queryKey` to the plain value `"x"` and `queryFn` to the plain
value `"y"`, yet the resulting descriptor's `queryKey` is the computed key
(a `.key` field, not the overridden plain value) and its `queryFn` is the
computed fetch function (not a plain value either). -/
theorem overrides_cannot_replace_computed_key :
    lookupLast (createQueryOptions ⟨.null⟩ captureHandler ["p"] .undefined
        [("queryKey", .v (.str "x"))]) "queryKey"
      = some (.key [.str "p", .obj [("kind", .str "query")]])
    ∧ (lookupLast (createQueryOptions ⟨.null⟩ captureHandler ["p"] .undefined
        [("queryKey", .v (.str "x"))]) "queryKey").map DescVal.isComputedKey
      = some true
    ∧ DescVal.isComputedKey (.v (.str "x")) = false
    ∧ (lookupLast (createQueryOptions ⟨.null⟩ captureHandler ["p"] .undefined
        [("queryKey", .v (.str "x")), ("queryFn", .v (.str "y"))])
        "queryFn").map DescVal.isPlainValue = some false
    ∧ DescVal.isPlainValue (.v (.str "y")) = true :=
  ⟨rfl, rfl, rfl, rfl, rfl⟩

/-- C7 (amended): in all three options builders the caller-supplied overrides
object is spread FIRST: every overrides field other than the computed ones
survives into the descriptor unchanged, while the computed `queryKey`/`queryFn`
(resp. `mutationKey`/`mutationFn`, and for infinite queries also
`initialPageParam`, which is taken from the overrides' own value or
`undefined`) always overwrite any same-named override field — the override can
never replace the computed key or fetch function. -/
theorem overrides_spread_first_semantics :
    (∀ (opts : RuntimeOptions) (query : JsValue → Comp JsValue)
       (path : List String) (input : JsValue) (options : Desc) (k : String),
       k ≠ "queryKey" → k ≠ "queryFn" →
       lookupLast (createQueryOptions opts query path input options) k
         = lookupLast options k)
    ∧ (∀ (opts : RuntimeOptions) (query : JsValue → Comp JsValue)
        (path : List String) (input : JsValue) (options : Desc),
       lookupLast (createQueryOptions opts query path input options) "queryKey"
         = some (.key (buildQueryKey path input (some .query))))
    ∧ (∀ (opts : RuntimeOptions) (query : JsValue → Comp JsValue)
        (path : List String) (input : JsValue) (options : Desc),
       lookupLast (createQueryOptions opts query path input options) "queryFn"
         = some (.qfn (fun _ =>
             query (.obj [("ctx", opts.ctx), ("input", input)]))))
    ∧ (∀ (opts : RuntimeOptions) (mutate : JsValue → Comp JsValue)
        (path : List String) (options : Desc) (k : String),
       k ≠ "mutationKey" → k ≠ "mutationFn" →
       lookupLast (createMutationOptions opts mutate path options) k
         = lookupLast options k)
    ∧ (∀ (opts : RuntimeOptions) (mutate : JsValue → Comp JsValue)
        (path : List String) (options : Desc),
       lookupLast (createMutationOptions opts mutate path options) "mutationKey"
         = some (.key (buildMutationKey path)))
    ∧ (∀ (opts : RuntimeOptions) (mutate : JsValue → Comp JsValue)
        (path : List String) (options : Desc),
       lookupLast (createMutationOptions opts mutate path options) "mutationFn"
         = some (.mfn (fun input =>
             mutate (.obj [("ctx", opts.ctx), ("input", input)]))))
    ∧ (∀ (opts : RuntimeOptions) (query : JsValue → Comp JsValue)
        (path : List String) (input : JsValue) (options : Desc) (k : String),
       k ≠ "queryKey" → k ≠ "queryFn" → k ≠ "initialPageParam" →
       lookupLast (createInfiniteQueryOptions opts query path input options) k
         = lookupLast options k)
    ∧ (∀ (opts : RuntimeOptions) (query : JsValue → Comp JsValue)
        (path : List String) (input : JsValue) (options : Desc),
       lookupLast (createInfiniteQueryOptions opts query path input options)
           "queryKey"
         = some (.key (buildQueryKey path input (some .infinite))))
    ∧ (∀ (opts : RuntimeOptions) (query : JsValue → Comp JsValue)
        (path : List String) (input : JsValue) (options : Desc),
       lookupLast (createInfiniteQueryOptions opts query path input options)
           "queryFn"
         = some (.ifn (fun context =>
             query (.obj [("opts", .obj [("ctx", opts.ctx)]), ("input", input),
               ("pageParam", objGetD context "pageParam")]))))
    ∧ (∀ (opts : RuntimeOptions) (query : JsValue → Comp JsValue)
        (path : List String) (input : JsValue) (options : Desc),
       lookupLast (createInfiniteQueryOptions opts query path input options)
           "initialPageParam"
         = some ((lookupLast options "initialPageParam").getD (.v .undefined))) := by
  refine ⟨?_, ?_, ?_, ?_, ?_, ?_, ?_, ?_, ?_, ?_⟩
  · intro opts query path input options k hk1 hk2
    unfold createQueryOptions
    rw [lookupLast_jsSpreadSet_other _ _ _ _ hk2,
        lookupLast_jsSpreadSet_other _ _ _ _ hk1]
  · intro opts query path input options
    unfold createQueryOptions
    rw [lookupLast_jsSpreadSet_other _ _ _ _ (by decide),
        lookupLast_jsSpreadSet_self]
  · intro opts query path input options
    unfold createQueryOptions
    rw [lookupLast_jsSpreadSet_self]
  · intro opts mutate path options k hk1 hk2
    unfold createMutationOptions
    rw [lookupLast_jsSpreadSet_other _ _ _ _ hk2,
        lookupLast_jsSpreadSet_other _ _ _ _ hk1]
  · intro opts mutate path options
    unfold createMutationOptions
    rw [lookupLast_jsSpreadSet_other _ _ _ _ (by decide),
        lookupLast_jsSpreadSet_self]
  · intro opts mutate path options
    unfold createMutationOptions
    rw [lookupLast_jsSpreadSet_self]
  · intro opts query path input options k hk1 hk2 hk3
    unfold createInfiniteQueryOptions
    rw [lookupLast_jsSpreadSet_other _ _ _ _ hk3,
        lookupLast_jsSpreadSet_other _ _ _ _ hk2,
        lookupLast_jsSpreadSet_other _ _ _ _ hk1]
  · intro opts query path input options
    unfold createInfiniteQueryOptions
    rw [lookupLast_jsSpreadSet_other _ _ _ _ (by decide),
        lookupLast_jsSpreadSet_other _ _ _ _ (by decide),
        lookupLast_jsSpreadSet_self]
  · intro opts query path input options
    unfold createInfiniteQueryOptions
    rw [lookupLast_jsSpreadSet_other _ _ _ _ (by decide),
        lookupLast_jsSpreadSet_self]
  · intro opts query path input options
    unfold createInfiniteQueryOptions
    rw [lookupLast_jsSpreadSet_self]

/-- C7 witness: a non-computed override field (`staleTime`) survives into the
descriptor of each of the three builders. -/
theorem overrides_spread_first_semantics_witness :
    lookupLast (createQueryOptions ⟨.null⟩ captureHandler ["p"] .undefined
        [("staleTime", .v (.num 5000))]) "staleTime" = some (.v (.num 5000))
    ∧ lookupLast (createMutationOptions ⟨.null⟩ captureHandler ["p"]
        [("staleTime", .v (.num 5000))]) "staleTime" = some (.v (.num 5000))
    ∧ lookupLast (createInfiniteQueryOptions ⟨.null⟩ captureHandler ["p"]
        .undefined [("staleTime", .v (.num 5000))]) "staleTime"
      = some (.v (.num 5000)) := by
  refine ⟨?_, ?_, ?_⟩
  · rw [overrides_spread_first_semantics.1 ⟨.null⟩ captureHandler ["p"]
      .undefined [("staleTime", .v (.num 5000))] "staleTime"
      (by decide) (by decide)]
    rfl
  · rw [overrides_spread_first_semantics.2.2.2.1 ⟨.null⟩ captureHandler ["p"]
      [("staleTime", .v (.num 5000))] "staleTime" (by decide) (by decide)]
    rfl
  · rw [overrides_spread_first_semantics.2.2.2.2.2.2.1 ⟨.null⟩ captureHandler
      ["p"] .undefined [("staleTime", .v (.num 5000))] "staleTime"
      (by decide) (by decide) (by decide)]
    rfl

/-- C6 counterexample: for the infinite-query builder currently wired to the
ResolverFn-style pipeline, `queryFn({pageParam: 2})` after
`infiniteQueryOptions({filter:'a'})` does NOT call the handler with the merged
single input `{filter:'a', pageParam:2}`: the handler's resolver argument
carries the caller input unchanged under `input` (its keys are exactly
`["filter"]`, not `["filter","pageParam"]`) with the page parameter as a
separate `pageParam` field. -/
theorem infinite_input_not_merged_counterexample :
    runOk (descIfn (createInfiniteQueryOptions ⟨.null⟩ captureHandler ["list"]
        (.obj [("filter", .str "a")]) []) "queryFn" (.obj [("pageParam", .num 2)]))
      = .obj [("opts", .obj [("ctx", .null)]),
          ("input", .obj [("filter", .str "a")]), ("pageParam", .num 2)]
    ∧ objKeys (objGetD (runOk (descIfn (createInfiniteQueryOptions ⟨.null⟩
        captureHandler ["list"] (.obj [("filter", .str "a")]) []) "queryFn"
        (.obj [("pageParam", .num 2)]))) "input") = ["filter"]
    ∧ ¬(objKeys (objGetD (runOk (descIfn (createInfiniteQueryOptions ⟨.null⟩
        captureHandler ["list"] (.obj [("filter", .str "a")]) []) "queryFn"
        (.obj [("pageParam", .num 2)]))) "input") = ["filter", "pageParam"]) := by
  refine ⟨rfl, rfl, by decide⟩

/-- C6 (amended): the infinite-query builder's `queryFn(pageContext)` calls
the handler with the caller-supplied input unchanged and the current page
parameter as a separate `pageParam` field of the resolver argument; only the
file's second (QueryFn-style) draft passes the merged single input
`{...input, pageParam}`. -/
theorem infinite_query_pageParam_passing :
    (∀ (opts : RuntimeOptions) (query : JsValue → Comp JsValue)
       (path : List String) (input : JsValue) (options : Desc)
       (context : JsValue),
       descIfn (createInfiniteQueryOptions opts query path input options)
           "queryFn" context
         = query (.obj [("opts", .obj [("ctx", opts.ctx)]), ("input", input),
             ("pageParam", objGetD context "pageParam")]))
    ∧ (∀ (opts : RuntimeOptions) (query : RuntimeOptions → JsValue → Comp JsValue)
        (path : List String) (input : JsValue) (options : Desc)
        (context : JsValue),
       descIfn (createInfiniteQueryOptionsV2 opts query path input options)
           "queryFn" context
         = query opts (.obj (jsSpreadSet (objPairs input) "pageParam"
             (objGetD context "pageParam")))) := by
  constructor
  · intro opts query path input options context
    unfold descIfn createInfiniteQueryOptions
    rw [lookupLast_jsSpreadSet_other _ _ _ _ (by decide),
        lookupLast_jsSpreadSet_self]
  · intro opts query path input options context
    unfold descIfn createInfiniteQueryOptionsV2
    rw [lookupLast_jsSpreadSet_other _ _ _ _ (by decide),
        lookupLast_jsSpreadSet_self]

/-- C9: arrays and `null` are never classified as collections during
collection-proxy resolution — they are returned unchanged (pass-through)
rather than wrapped in a nested resolver view — and a non-null, non-array
object that is not tagged as an operation is the only case recursed into as a
sub-collection. -/
theorem arrays_and_null_never_collections :
    (∀ (elems : List Node), isCollection (.arr elems) = false)
    ∧ isCollection .null = false
    ∧ (∀ (meta : DDmushiMeta) (target : List (String × Node))
        (path : List String) (prop : String) (elems : List Node),
       lookupLast target prop = some (.arr elems) →
       collectionBuilderGet meta target path prop = .passthrough (.arr elems))
    ∧ (∀ (meta : DDmushiMeta) (target : List (String × Node))
        (path : List String) (prop : String),
       lookupLast target prop = some .null →
       collectionBuilderGet meta target path prop = .passthrough .null)
    ∧ (∀ (meta : DDmushiMeta) (target : List (String × Node))
        (path : List String) (prop : String) (fields : List (String × Node)),
       lookupLast target prop = some (.obj fields) →
       isQueryOperation (.obj fields) = false →
       isMutationOperation (.obj fields) = false →
       collectionBuilderGet meta target path prop
         = .collectionView ((meta.collections (.obj fields)).getD (.obj fields))
             (path ++ [prop])) := by
  refine ⟨fun _ => rfl, rfl, ?_, ?_, ?_⟩
  · intro meta target path prop elems h
    unfold collectionBuilderGet
    rw [h]
    rfl
  · intro meta target path prop h
    unfold collectionBuilderGet
    rw [h]
    rfl
  · intro meta target path prop fields h hq hm
    unfold collectionBuilderGet
    rw [h]
    simp only [Option.getD_some]
    rw [hq, hm]
    rfl

/-- C9 witness: an array-valued property passes through unchanged, and an
untagged plain object resolves to a nested collection view. -/
theorem arrays_and_null_never_collections_witness :
    lookupLast [("a", Node.arr [])] "a" = some (.arr [])
    ∧ collectionBuilderGet ⟨.null, fun _ => none⟩ [("a", Node.arr [])] [] "a"
        = .passthrough (.arr [])
    ∧ lookupLast [("sub", Node.obj [])] "sub" = some (.obj [])
    ∧ isQueryOperation (.obj []) = false
    ∧ isMutationOperation (.obj []) = false
    ∧ collectionBuilderGet ⟨.null, fun _ => none⟩ [("sub", Node.obj [])] [] "sub"
        = .collectionView (.obj []) ["sub"] := by
  refine ⟨rfl, ?_, rfl, rfl, rfl, ?_⟩
  · exact arrays_and_null_never_collections.2.2.1 ⟨.null, fun _ => none⟩
      [("a", Node.arr [])] [] "a" [] rfl
  · exact arrays_and_null_never_collections.2.2.2.2 ⟨.null, fun _ => none⟩
      [("sub", Node.obj [])] [] "sub" [] rfl rfl rfl
